import Mathlib

set_option maxRecDepth 100000

/-!
Verification of the compact telemetry codec of the IoT payload optimization
repository: the simulated embedded MessagePack encoder, the reference
self-describing map grammar, the positional-schema size gate, the compact
struct-plus-compression encoder, the accelerometer vector parser, and the
batch pool size-budget policy.

All machine integers are modelled as `Nat`/`Int`; byte strings are `List Nat`
with each element a byte value.  External libraries (the msgpack codec, zlib,
the generated protobuf serializer, IEEE-754 float packing) are either modelled
from the spec's grammar tables or abstracted as explicit function parameters.
-/

/-- UTF-8 bytes of a string, as natural numbers.  This is exactly the byte
list underlying `String.toUTF8` (which is `data.flatMap utf8EncodeChar`),
mirroring Python's `s.encode('utf-8')`. -/
def utf8 (s : String) : List Nat :=
  s.data.flatMap (fun c => (String.utf8EncodeChar c).map (fun b => b.toNat))

/- ------------------------------------------------------------------
MessagePack Project / simulate_c_msgpack.py
------------------------------------------------------------------ -/

/-- `msgpack_encode_string` of simulate_c_msgpack.py: the body operating on
the already UTF-8-encoded bytes (`data = s.encode('utf-8')`). -/
def msgpack_encode_bytes (data : List Nat) : List Nat :=
  let length := data.length
  if length ≤ 31 then
    (0xa0 + length) :: data
  else if length ≤ 255 then
    0xd9 :: length :: data
  else
    0xda :: ((length >>> 8) &&& 0xFF) :: (length &&& 0xFF) :: data

/-- `msgpack_encode_string(s)`: UTF-8 encode, then tag by byte length. -/
def msgpack_encode_string (s : String) : List Nat :=
  msgpack_encode_bytes (utf8 s)

/-- `msgpack_encode_map(count)` of simulate_c_msgpack.py. -/
def msgpack_encode_map (count : Nat) : List Nat :=
  if count ≤ 15 then
    [0x80 + count]
  else
    [0xde, (count >>> 8) &&& 0xFF, count &&& 0xFF]

/-- The fixed 20-name field order used by every encoder in the repository. -/
def msgpackFieldOrder : List String :=
  ["msisdn", "iso6346", "time", "rssi", "cgi", "ble-m", "bat-soc",
   "acc", "temperature", "humidity", "pressure", "door", "gnss",
   "latitude", "longitude", "altitude", "speed", "heading", "nsat", "hdop"]

/-- Python dict lookup `d[k]` over an insertion-ordered association list
(`none` models a KeyError). -/
def dictGet (d : List (String × String)) (k : String) : Option String :=
  (d.find? (fun p => p.1 == k)).map (fun p => p.2)

/-- Look up each named field, in order, pairing it with its value; `none` as
soon as a key is missing (KeyError in the source). -/
def lookupFields (d : List (String × String)) : List String → Option (List (String × String))
  | [] => some []
  | k :: ks => do
    let v ← dictGet d k
    let rest ← lookupFields d ks
    pure ((k, v) :: rest)

/-- `simulate_c_msgpack_compression(data)`: a 20-entry map header followed by
the 20 fields, in the fixed declared order, each as a length-tagged key
string then a length-tagged value string. -/
def simulate_c_msgpack_compression (data : List (String × String)) : Option (List Nat) := do
  let fields ← lookupFields data msgpackFieldOrder
  pure (msgpack_encode_map 20 ++
    fields.flatMap (fun kv => msgpack_encode_string kv.1 ++ msgpack_encode_string kv.2))

/-- Modelled from the spec: `msgpack_compress` delegates to the external
`msgpack.packb(data, use_bin_type=True)` library call, which is not part of
the repository.  Per the spec's grammar table (map header `0x80+count` for
count ≤ 15 else `0xde` + 2-byte big-endian; strings tagged `0xa0+len` /
`0xd9` / `0xda` by UTF-8 byte length) applied to the dict's entries in their
insertion order, which is how the library serializes a Python dict. -/
def msgpack_packb (d : List (String × String)) : List Nat :=
  msgpack_encode_map d.length ++
    d.flatMap (fun kv => msgpack_encode_bytes (utf8 kv.1) ++ msgpack_encode_bytes (utf8 kv.2))

/-- The literal 20-field record of spec section 8 (also `generate_test_data`
in simulate_c_msgpack.py), in its declared insertion order. -/
def literal_record : List (String × String) :=
  [("msisdn", "393600504920"),
   ("iso6346", "LMCU0954822"),
   ("time", "300725 221117.8"),
   ("rssi", "21"),
   ("cgi", "999-01-1-31D41"),
   ("ble-m", "1"),
   ("bat-soc", "93"),
   ("acc", "-974.0700 -25.1270 -45.6744"),
   ("temperature", "18.32"),
   ("humidity", "75.44"),
   ("pressure", "1016.7932"),
   ("door", "D"),
   ("gnss", "1"),
   ("latitude", "31.9277"),
   ("longitude", "28.6378"),
   ("altitude", "56.62"),
   ("speed", "0.8"),
   ("heading", "302.07"),
   ("nsat", "11"),
   ("hdop", "5.0")]

/- ------------------------------------------------------------------
Modelled from the spec: the self-describing map decoder.  The repository
decodes with the external `msgpack.unpackb` library call (not in src);
the spec states that decoding reverses the encoding grammar.  Decoded
strings are represented by their UTF-8 byte sequences.
------------------------------------------------------------------ -/

/-- Modelled from the spec: decode one length-tagged string from the front of
a byte stream, returning its bytes and the remaining stream. -/
def msgpack_decode_str : List Nat → Option (List Nat × List Nat)
  | [] => none
  | b :: rest =>
    if 0xa0 ≤ b ∧ b ≤ 0xbf then
      let len := b - 0xa0
      if rest.length < len then none else some (rest.take len, rest.drop len)
    else if b = 0xd9 then
      match rest with
      | len :: rest2 =>
        if rest2.length < len then none else some (rest2.take len, rest2.drop len)
      | [] => none
    else if b = 0xda then
      match rest with
      | hi :: lo :: rest2 =>
        let len := hi * 256 + lo
        if rest2.length < len then none else some (rest2.take len, rest2.drop len)
      | _ => none
    else none

/-- Modelled from the spec: decode `n` key/value string pairs from the front
of a byte stream. -/
def msgpack_decode_pairs : Nat → List Nat → Option (List (List Nat × List Nat) × List Nat)
  | 0, rest => some ([], rest)
  | n + 1, rest => do
    let (k, r1) ← msgpack_decode_str rest
    let (v, r2) ← msgpack_decode_str r1
    let (ps, r3) ← msgpack_decode_pairs n r2
    pure ((k, v) :: ps, r3)

/-- Modelled from the spec: decode a complete string-keyed map payload
(`msgpack.unpackb` rejects trailing bytes, so the stream must be consumed
exactly). -/
def msgpack_decode_map (bytes : List Nat) : Option (List (List Nat × List Nat)) := do
  let (count, rest) ←
    match bytes with
    | b :: rest =>
      if 0x80 ≤ b ∧ b ≤ 0x8f then some (b - 0x80, rest)
      else if b = 0xde then
        match rest with
        | hi :: lo :: rest2 => some (hi * 256 + lo, rest2)
        | _ => none
      else none
    | [] => none
  let (ps, r) ← msgpack_decode_pairs count rest
  if r.isEmpty then some ps else none

/- ------------------------------------------------------------------
Python literal parsing helpers, shared by the Protobuf and Struct services.
------------------------------------------------------------------ -/

/-- Strip leading and trailing whitespace, as Python's `int`/`float`
constructors do before parsing. -/
def pyStrip (cs : List Char) : List Char :=
  ((cs.dropWhile Char.isWhitespace).reverse.dropWhile Char.isWhitespace).reverse

/-- Decimal value of a digit list. -/
def digitsToNat (ds : List Char) : Nat :=
  ds.foldl (fun n c => n * 10 + (c.toNat - 48)) 0

/-- Python `int(s)` restricted to the telemetry alphabet: optional
surrounding whitespace, an optional sign, then one or more ASCII decimal
digits (digit-group underscores and non-ASCII digits do not occur in this
system's inputs and are not modelled). -/
def pyInt (s : String) : Option Int :=
  match pyStrip s.data with
  | [] => none
  | c :: rest =>
    let signAndDigits : Int × List Char :=
      if c = '-' then (-1, rest) else if c = '+' then (1, rest) else (1, c :: rest)
    if signAndDigits.2 ≠ [] ∧ signAndDigits.2.all Char.isDigit then
      some (signAndDigits.1 * (digitsToNat signAndDigits.2 : Int))
    else none

/-- A Python float value, represented by the accepted literal text.  The
development never identifies distinct literals denoting the same IEEE value;
every claim only moves literals around unchanged. -/
structure PyFloat where
  lit : String
deriving DecidableEq

/-- Exponent tail of a Python float literal: empty, or `e`/`E`, an optional
sign, and one or more digits. -/
def pyExpTail : List Char → Bool
  | [] => true
  | c :: rest =>
    if c = 'e' ∨ c = 'E' then
      let body := match rest with
        | s :: r => if s = '-' ∨ s = '+' then r else s :: r
        | [] => []
      !body.isEmpty && body.all Char.isDigit
    else false

/-- Body of a Python float literal after the optional sign:
`digits [. digits] [exp]` or `. digits [exp]`, with at least one digit. -/
def pyFloatBody (cs : List Char) : Bool :=
  let ds := cs.takeWhile Char.isDigit
  match cs.dropWhile Char.isDigit with
  | c :: r2 =>
    if c = '.' then
      let fs := r2.takeWhile Char.isDigit
      (!ds.isEmpty || !fs.isEmpty) && pyExpTail (r2.dropWhile Char.isDigit)
    else !ds.isEmpty && pyExpTail (c :: r2)
  | [] => !ds.isEmpty && pyExpTail []

/-- A Python float literal: optional sign then `pyFloatBody` (the `inf` and
`nan` spellings do not occur in this system's inputs and are not modelled). -/
def pyFloatTok : List Char → Bool
  | [] => false
  | c :: rest => if c = '-' ∨ c = '+' then pyFloatBody rest else pyFloatBody (c :: rest)

/-- Python `float(s)`: strip whitespace, check the literal grammar, and keep
the accepted literal as the value representation. -/
def pyFloat (s : String) : Option PyFloat :=
  let t := pyStrip s.data
  if pyFloatTok t then some (PyFloat.mk (String.mk t)) else none

/-- Effectful map over a list in the `Option` monad, written recursively so
that success is characterized by elementwise success. -/
def optMapM (f : α → Option β) : List α → Option (List β)
  | [] => some []
  | a :: as => do
    let b ← f a
    let bs ← optMapM f as
    pure (b :: bs)

/-- Python `s.split()` with no argument: split on runs of whitespace,
discarding empty pieces.  Each step consumes at least one character, so the
input length is sufficient fuel. -/
def pySplitWsAux : Nat → List Char → List (List Char)
  | 0, _ => []
  | fuel + 1, cs =>
    match cs.dropWhile Char.isWhitespace with
    | [] => []
    | c :: rest =>
      ((c :: rest).takeWhile (fun a => !a.isWhitespace)) ::
        pySplitWsAux fuel ((c :: rest).dropWhile (fun a => !a.isWhitespace))

/-- Python `s.split()` with no argument. -/
def pySplitWs (cs : List Char) : List (List Char) :=
  pySplitWsAux cs.length cs

/- ------------------------------------------------------------------
Protobuf_Service_with_Dashboard / encoder_to_astrocast.py
------------------------------------------------------------------ -/

/-- The optional fractional part `(?:\.\d+)?` of the number pattern, matched
greedily at the start of the input: the consumed characters (empty, or a dot
followed by one or more digits) and the rest of the input. -/
def fracPart : List Char → List Char × List Char
  | [] => ([], [])
  | c :: r3 =>
    if c = '.' then
      let fs := r3.takeWhile Char.isDigit
      if fs.isEmpty then ([], c :: r3) else ('.' :: fs, r3.dropWhile Char.isDigit)
    else ([], c :: r3)

/-- Try to match the regular expression `[-+]?\d+(?:\.\d+)?` at the start of
the character list: an optional sign, one or more digits, then greedily a
dot followed by one or more digits.  Returns the matched token and the rest
of the input. -/
def matchNumAt (cs : List Char) : Option (List Char × List Char) :=
  let signAndRest : List Char × List Char :=
    match cs with
    | c :: r => if c = '-' ∨ c = '+' then ([c], r) else ([], cs)
    | [] => ([], [])
  let ds := signAndRest.2.takeWhile Char.isDigit
  if ds.isEmpty then none
  else
    let fp := fracPart (signAndRest.2.dropWhile Char.isDigit)
    some (signAndRest.1 ++ ds ++ fp.1, fp.2)

/-- `re.findall(r'[-+]?\d+(?:\.\d+)?', s)`: scan left to right, taking each
non-overlapping match and skipping one character where no match starts.
Every successful match consumes at least one character, so the input length
is sufficient fuel. -/
def findNumsAux : Nat → List Char → List (List Char)
  | 0, _ => []
  | _ + 1, [] => []
  | fuel + 1, c :: rest =>
    match matchNumAt (c :: rest) with
    | some (tok, rest2) => tok :: findNumsAux fuel rest2
    | none => findNumsAux fuel rest

/-- All signed-decimal-number tokens of a string. -/
def findNums (s : String) : List (List Char) :=
  findNumsAux s.data.length s.data

/-- Error taxonomy shared by the encoders. -/
inductive EncodeError
  | malformedVector
  | floatParse
  | intParse
  | packError
deriving DecidableEq

deriving instance DecidableEq for Except

/-- `parse_acc(acc_raw)`: extract all signed-decimal tokens; reject unless
exactly 3 are found; convert each token with Python `float`. -/
def parse_acc (acc_raw : String) : Except EncodeError (List PyFloat) :=
  let nums := findNums acc_raw
  if nums.length ≠ 3 then .error .malformedVector
  else
    match optMapM (fun t => pyFloat (String.mk t)) nums with
    | some fs => .ok fs
    | none => .error .floatParse

/-- The payload ceiling, `MAX_PAYLOAD_SIZE = 158`, shared by the Protobuf
and Struct services. -/
def MAX_PAYLOAD_SIZE : Nat := 158

/-- `PayloadTooLargeError{actualSize, limit}`. -/
structure PayloadTooLarge where
  actualSize : Nat
  limit : Nat
deriving DecidableEq

/-- `serialize(data)` of encoder_to_astrocast.py: serialize the record, then
enforce the size budget.  The body `pb.SerializeToString()` belongs to the
generated protobuf module, which is not in src; it is abstracted as the
function parameter `encodePB`, applied to the validated record. -/
def serialize (encodePB : α → List Nat) (data : α) : Except PayloadTooLarge (List Nat) :=
  let raw := encodePB data
  if raw.length ≥ MAX_PAYLOAD_SIZE then
    .error (PayloadTooLarge.mk raw.length MAX_PAYLOAD_SIZE)
  else
    .ok raw

/- ------------------------------------------------------------------
Struct_Zlib_Service / locust_sender.py
------------------------------------------------------------------ -/

/-- One raw telemetry record: the 20 required fields, all held as strings,
as produced by `generate_test_container_data` or parsed from JSON. -/
structure StringRecord where
  msisdn : String
  iso6346 : String
  time : String
  rssi : String
  cgi : String
  ble_m : String
  bat_soc : String
  acc : String
  temperature : String
  humidity : String
  pressure : String
  door : String
  gnss : String
  latitude : String
  longitude : String
  altitude : String
  speed : String
  heading : String
  nsat : String
  hdop : String
deriving DecidableEq

/-- The typed record built by `convert_to_typed_data`: strings stay strings,
the five small counters become integers, the physical quantities become
floats, and `acc` becomes a list of floats. -/
structure TypedData where
  msisdn : String
  iso6346 : String
  time : String
  cgi : String
  door : String
  rssi : Int
  ble_m : Int
  bat_soc : Int
  gnss : Int
  nsat : Int
  temperature : PyFloat
  humidity : PyFloat
  pressure : PyFloat
  latitude : PyFloat
  longitude : PyFloat
  altitude : PyFloat
  speed : PyFloat
  heading : PyFloat
  hdop : PyFloat
  acc : List PyFloat
deriving DecidableEq

/-- Lift an optional parse result to the encoder error monad, attributing
the failure to a specific error kind. -/
def parseOr (e : EncodeError) : Option α → Except EncodeError α
  | some a => .ok a
  | none => .error e

/-- `convert_to_typed_data(string_data)`: Python `int` on the five counters,
Python `float` on the nine physical quantities, and
`[float(x) for x in string_data["acc"].split()]` for the accelerometer —
note the whitespace-only split and the absence of any token-count check. -/
def convert_to_typed_data (r : StringRecord) : Except EncodeError TypedData := do
  let rssi ← parseOr .intParse (pyInt r.rssi)
  let ble_m ← parseOr .intParse (pyInt r.ble_m)
  let bat_soc ← parseOr .intParse (pyInt r.bat_soc)
  let gnss ← parseOr .intParse (pyInt r.gnss)
  let nsat ← parseOr .intParse (pyInt r.nsat)
  let temperature ← parseOr .floatParse (pyFloat r.temperature)
  let humidity ← parseOr .floatParse (pyFloat r.humidity)
  let pressure ← parseOr .floatParse (pyFloat r.pressure)
  let latitude ← parseOr .floatParse (pyFloat r.latitude)
  let longitude ← parseOr .floatParse (pyFloat r.longitude)
  let altitude ← parseOr .floatParse (pyFloat r.altitude)
  let speed ← parseOr .floatParse (pyFloat r.speed)
  let heading ← parseOr .floatParse (pyFloat r.heading)
  let hdop ← parseOr .floatParse (pyFloat r.hdop)
  let acc ← parseOr .floatParse (optMapM (fun t => pyFloat (String.mk t)) (pySplitWs r.acc.data))
  .ok (TypedData.mk r.msisdn r.iso6346 r.time r.cgi r.door
    rssi ble_m bat_soc gnss nsat
    temperature humidity pressure latitude longitude altitude speed heading hdop
    acc)

/-- A `struct.pack` format code used by the service: `H` (2-byte big-endian
unsigned), `B` (unsigned byte), `f` (big-endian 4-byte float). -/
inductive PackCode
  | H
  | B
  | F
deriving DecidableEq

/-- A value handed to `struct.pack`. -/
inductive PackVal
  | int (i : Int)
  | float (f : PyFloat)
deriving DecidableEq

/-- The textual fields of the struct layout. -/
def structStringFields : List String := ["msisdn", "iso6346", "time", "cgi", "door"]

/-- The single-byte integer fields of the struct layout. -/
def structIntFields : List String := ["rssi", "ble-m", "bat-soc", "gnss", "nsat"]

/-- String field accessor by source field name. -/
def tdStr (td : TypedData) : String → String
  | "msisdn" => td.msisdn
  | "iso6346" => td.iso6346
  | "time" => td.time
  | "cgi" => td.cgi
  | _ => td.door

/-- Integer field accessor by source field name. -/
def tdInt (td : TypedData) : String → Int
  | "rssi" => td.rssi
  | "ble-m" => td.ble_m
  | "bat-soc" => td.bat_soc
  | "gnss" => td.gnss
  | _ => td.nsat

/-- Float field accessor by source field name. -/
def tdFloat (td : TypedData) : String → PyFloat
  | "temperature" => td.temperature
  | "humidity" => td.humidity
  | "pressure" => td.pressure
  | "latitude" => td.latitude
  | "longitude" => td.longitude
  | "altitude" => td.altitude
  | "speed" => td.speed
  | "heading" => td.heading
  | _ => td.hdop

/-- Format codes contributed by one field of the loop in
`struct_zlib_compress`: `H` for a string length, `B` for a counter,
`fff` for the accelerometer, `f` for any other numeric field. -/
def fieldCodes (field : String) : List PackCode :=
  if field ∈ structStringFields then [.H]
  else if field ∈ structIntFields then [.B]
  else if field = "acc" then [.F, .F, .F]
  else [.F]

/-- Values contributed by one field of the loop: the UTF-8 byte length for a
string, the integer for a counter, `typed_data["acc"][:3]` for the
accelerometer, the float otherwise. -/
def fieldVals (td : TypedData) (field : String) : List PackVal :=
  if field ∈ structStringFields then [.int ((utf8 (tdStr td field)).length : Int)]
  else if field ∈ structIntFields then [.int (tdInt td field)]
  else if field = "acc" then (td.acc.take 3).map .float
  else [.float (tdFloat td field)]

/-- String bytes contributed by one field of the loop (appended after the
whole fixed-width block). -/
def fieldStrs (td : TypedData) (field : String) : List (List Nat) :=
  if field ∈ structStringFields then [utf8 (tdStr td field)] else []

/-- The format codes accumulated over the loop, `'>' + ''.join(format_parts)`. -/
def struct_format : List PackCode := msgpackFieldOrder.flatMap fieldCodes

/-- The values accumulated over the loop. -/
def struct_vals (td : TypedData) : List PackVal := msgpackFieldOrder.flatMap (fieldVals td)

/-- The deferred string bytes accumulated over the loop. -/
def struct_strs (td : TypedData) : List (List Nat) := msgpackFieldOrder.flatMap (fieldStrs td)

/-- `struct.pack` for one format code and one value: `H` requires an integer
in `0..65535` and yields 2 big-endian bytes, `B` requires an integer in
`0..255` and yields 1 byte, `f` packs a float as IEEE-754 binary32
big-endian through the abstract primitive `packF`.  A type mismatch or an
out-of-range value raises `struct.error` (`none`). -/
def packOne (packF : PyFloat → List Nat) : PackCode → PackVal → Option (List Nat)
  | .H, .int n => if 0 ≤ n ∧ n ≤ 65535 then some [n.toNat / 256, n.toNat % 256] else none
  | .B, .int n => if 0 ≤ n ∧ n ≤ 255 then some [n.toNat] else none
  | .F, .float f => some (packF f)
  | _, _ => none

/-- `struct.pack(format_string, *values)`: the value count must match the
format code count, every value must fit its code, and the encodings are
concatenated in order. -/
def structPack (packF : PyFloat → List Nat) : List PackCode → List PackVal → Option (List Nat)
  | [], [] => some []
  | c :: cs, v :: vs => do
    let b ← packOne packF c v
    let rest ← structPack packF cs vs
    pure (b ++ rest)
  | _, _ => none

/-- `struct_zlib_compress(data)`: convert to typed data, pack the fixed-width
block over the declared field order, append the five strings' UTF-8 bytes
after the entire block, and compress.  `zlib.compress(binary_data, level=9)`
is an external library call, abstracted as the parameter `compress`. -/
def struct_zlib_compress (compress : List Nat → List Nat) (packF : PyFloat → List Nat)
    (data : StringRecord) : Except EncodeError (List Nat) := do
  let td ← convert_to_typed_data data
  match structPack packF struct_format (struct_vals td) with
  | some binary => .ok (compress (binary ++ (struct_strs td).flatten))
  | none => .error .packError

/-- One entry of the pre-generated data pool: the raw record, its compressed
payload, and the stored payload size. -/
structure PoolEntry where
  original : StringRecord
  compressed : List Nat
  size : Nat
deriving DecidableEq

/-- The generation loop of `ContainerDataSender.initialize_data_pool`:
candidates stand for the successive outputs of the random generator
`generate_test_container_data`, and `compressFn` for `struct_zlib_compress`
with its compression and float primitives supplied.  A candidate whose
compressed size reaches `MAX_PAYLOAD_SIZE` is rejected (counted) and the
loop continues; otherwise the entry joins the pool, until the target count
is reached or the candidate stream is exhausted.  The batch subdivision of
the source affects only progress logging, not pool contents, and is not
modelled. -/
def initialize_data_pool (compressFn : StringRecord → List Nat) :
    List StringRecord → Nat → List PoolEntry × Nat
  | _, 0 => ([], 0)
  | [], _ + 1 => ([], 0)
  | d :: rest, target + 1 =>
    let compressed := compressFn d
    let size := compressed.length
    if size ≥ MAX_PAYLOAD_SIZE then
      let pr := initialize_data_pool compressFn rest (target + 1)
      (pr.1, pr.2 + 1)
    else
      let pr := initialize_data_pool compressFn rest target
      (PoolEntry.mk d compressed size :: pr.1, pr.2)

/-- The sample record used as a concrete witness input: the literal record of
spec section 8 as a `StringRecord`. -/
def sampleRecord : StringRecord :=
  StringRecord.mk "393600504920" "LMCU0954822" "300725 221117.8" "21" "999-01-1-31D41"
    "1" "93" "-974.0700 -25.1270 -45.6744" "18.32" "75.44" "1016.7932" "D" "1"
    "31.9277" "28.6378" "56.62" "0.8" "302.07" "11" "5.0"

/-- A concrete stand-in for the IEEE-754 binary32 big-endian packer, used
only to instantiate witnesses. -/
def pfZero : PyFloat → List Nat := fun _ => [0, 0, 0, 0]

/-- A minimal well-formed record used as a concrete witness input. -/
def tinyRecord : StringRecord :=
  StringRecord.mk "m" "i" "t" "1" "c" "1" "1" "1.0 2.0 3.0"
    "1.0" "1.0" "1.0" "d" "1" "1.0" "1.0" "1.0" "1.0" "1.0" "1" "1.0"

/-- The typed form of `tinyRecord`. -/
def tinyTD : TypedData :=
  TypedData.mk "m" "i" "t" "c" "d" 1 1 1 1 1
    (PyFloat.mk "1.0") (PyFloat.mk "1.0") (PyFloat.mk "1.0") (PyFloat.mk "1.0")
    (PyFloat.mk "1.0") (PyFloat.mk "1.0") (PyFloat.mk "1.0") (PyFloat.mk "1.0")
    (PyFloat.mk "1.0")
    [PyFloat.mk "1.0", PyFloat.mk "2.0", PyFloat.mk "3.0"]

/-- `tinyRecord` with the comma-separated accelerometer style. -/
def commaAccRecord : StringRecord :=
  StringRecord.mk "m" "i" "t" "1" "c" "1" "1" "-993.9,-27.1,-52.0"
    "1.0" "1.0" "1.0" "d" "1" "1.0" "1.0" "1.0" "1.0" "1.0" "1" "1.0"

/-- `tinyRecord` with the separator-free accelerometer style. -/
def noSepAccRecord : StringRecord :=
  StringRecord.mk "m" "i" "t" "1" "c" "1" "1" "-993.9-27.1-52.0"
    "1.0" "1.0" "1.0" "d" "1" "1.0" "1.0" "1.0" "1.0" "1.0" "1" "1.0"

/-- `tinyRecord` with a 4-token accelerometer value. -/
def fourTokenRecord : StringRecord :=
  StringRecord.mk "m" "i" "t" "1" "c" "1" "1" "1.0 2.0 3.0 4.0"
    "1.0" "1.0" "1.0" "d" "1" "1.0" "1.0" "1.0" "1.0" "1.0" "1" "1.0"

/-- `tinyRecord` with a 2-token accelerometer value. -/
def shortAccRecord : StringRecord :=
  StringRecord.mk "m" "i" "t" "1" "c" "1" "1" "-993.9 -27.1"
    "1.0" "1.0" "1.0" "d" "1" "1.0" "1.0" "1.0" "1.0" "1.0" "1" "1.0"

/-- `tinyRecord` with a negative rssi, outside the unsigned-byte range. -/
def negRssiRecord : StringRecord :=
  StringRecord.mk "m" "i" "t" "-1" "c" "1" "1" "1.0 2.0 3.0"
    "1.0" "1.0" "1.0" "d" "1" "1.0" "1.0" "1.0" "1.0" "1.0" "1" "1.0"

/- ------------------------------------------------------------------
Theorems
------------------------------------------------------------------ -/

/-- C1: for the literal 20-field record of spec section 8, the simulated
embedded MessagePack encoder and the reference MessagePack encoder produce
byte-identical output (here 300 bytes): identical tag bytes, identical field
order, identical string contents. -/
theorem parity_simulate_eq_packb_on_literal_record :
    simulate_c_msgpack_compression literal_record = some (msgpack_packb literal_record) ∧
    (msgpack_packb literal_record).length = 300 := by
  decide

/-- C3: the positional-schema encoder returns the encoded bytes exactly when
their length is strictly below `MAX_PAYLOAD_SIZE = 158`; at or above the
limit it fails with `PayloadTooLargeError` carrying the actual size and the
limit, and a returned payload is always the serializer's output, unmodified. -/
theorem serialize_size_gate {α : Type} (encodePB : α → List Nat) (data : α) :
    (serialize encodePB data = .ok (encodePB data) ↔
      (encodePB data).length < MAX_PAYLOAD_SIZE) ∧
    ((encodePB data).length ≥ MAX_PAYLOAD_SIZE →
      serialize encodePB data =
        .error (PayloadTooLarge.mk (encodePB data).length MAX_PAYLOAD_SIZE)) ∧
    (∀ out, serialize encodePB data = .ok out → out = encodePB data) := by
  refine ⟨?_, ?_, ?_⟩
  · unfold serialize
    constructor
    · intro h
      by_contra hge
      rw [if_pos (by omega)] at h
      exact absurd h (by simp)
    · intro h
      rw [if_neg (by omega)]
  · intro h
    unfold serialize
    rw [if_pos h]
  · intro out h
    unfold serialize at h
    by_cases hge : (encodePB data).length ≥ MAX_PAYLOAD_SIZE
    · rw [if_pos hge] at h
      exact absurd h (by simp)
    · rw [if_neg hge] at h
      exact (Except.ok.injEq _ _ ▸ h.symm).symm ▸ rfl

/-- Witness for C3 at concrete inputs: a 3-byte payload passes the gate
unmodified, and a 158-byte payload fails with the actual size and limit. -/
theorem serialize_size_gate_witness :
    serialize (fun _ : Nat => [1, 2, 3]) 0 = .ok [1, 2, 3] ∧
    serialize (fun _ : Nat => List.replicate 158 0) 0 =
      .error (PayloadTooLarge.mk 158 158) := by
  constructor
  · exact (serialize_size_gate (fun _ : Nat => [1, 2, 3]) 0).1.mpr (by decide)
  · have h := (serialize_size_gate (fun _ : Nat => List.replicate 158 0) 0).2.1 (by decide)
    simpa using h

/-- C5: every entry stored by the batch generation loop has compressed size
strictly below `MAX_PAYLOAD_SIZE` (oversized candidates are rejected and
counted instead of stored), the pool never exceeds the target count, and
when generation finishes without exhausting the candidate stream the pool
holds exactly the target count of records. -/
theorem pool_size_budget_invariant (compressFn : StringRecord → List Nat)
    (cands : List StringRecord) (target : Nat) :
    (∀ e ∈ (initialize_data_pool compressFn cands target).1,
      e.size < MAX_PAYLOAD_SIZE ∧ e.size = e.compressed.length) ∧
    (initialize_data_pool compressFn cands target).1.length ≤ target ∧
    ((initialize_data_pool compressFn cands target).1.length = target ∨
      (initialize_data_pool compressFn cands target).1.length +
        (initialize_data_pool compressFn cands target).2 = cands.length) := by
  induction cands generalizing target with
  | nil =>
    cases target with
    | zero => simp [initialize_data_pool]
    | succ t => simp [initialize_data_pool]
  | cons d rest ih =>
    cases target with
    | zero => simp [initialize_data_pool]
    | succ t =>
      by_cases hsz : (compressFn d).length ≥ MAX_PAYLOAD_SIZE
      · have hrec := ih (t + 1)
        simp only [initialize_data_pool, if_pos hsz]
        refine ⟨hrec.1, hrec.2.1, ?_⟩
        rcases hrec.2.2 with h | h
        · exact Or.inl h
        · right
          simp only [List.length_cons]
          omega
      · have hrec := ih t
        simp only [initialize_data_pool, if_neg hsz]
        refine ⟨?_, ?_, ?_⟩
        · intro e he
          rcases List.mem_cons.mp he with rfl | hmem
          · refine ⟨?_, rfl⟩
            show (compressFn d).length < MAX_PAYLOAD_SIZE
            omega
          · exact hrec.1 e hmem
        · simp only [List.length_cons]
          omega
        · rcases hrec.2.2 with h | h
          · left
            simp only [List.length_cons]
            omega
          · right
            simp only [List.length_cons]
            omega

/-- Witness for C5 at a concrete input: with a constant 1-byte compressor,
two candidates and target 1, the pool's single entry is in budget. -/
theorem pool_size_budget_invariant_witness :
    (PoolEntry.mk sampleRecord [0] 1).size < MAX_PAYLOAD_SIZE ∧
    (PoolEntry.mk sampleRecord [0] 1).size = (PoolEntry.mk sampleRecord [0] 1).compressed.length := by
  exact (pool_size_budget_invariant (fun _ => [0]) [sampleRecord, sampleRecord] 1).1
    (PoolEntry.mk sampleRecord [0] 1) (by decide)

/-- Big-endian byte extraction: for values below 2^16 the source's
shift-and-mask pair is the division/remainder pair. -/
theorem shift_mask_be16 (n : Nat) (h : n ≤ 65535) :
    (n >>> 8) &&& 0xFF = n / 256 ∧ n &&& 0xFF = n % 256 := by
  have hmod : ∀ m : Nat, m &&& 255 = m % 256 := by
    intro m
    have := Nat.and_pow_two_sub_one_eq_mod m 8
    norm_num at this
    exact this
  have hdiv : n >>> 8 = n / 256 := by
    rw [Nat.shiftRight_eq_div_pow]
  constructor
  · rw [hdiv, hmod]
    exact Nat.mod_eq_of_lt (by omega)
  · exact hmod n

/-- Counterexample to C2: the claim covers every count, but for a count of
65536 the code emits `0xde 0x00 0x00` — the count modulo 2^16 — whose
big-endian reading is 0, not 65536, so the emitted pair is not "the count as
2-byte big-endian".  (The encoder has no 32-bit size class.) -/
theorem msgpack_encode_map_truncates_at_65536 :
    msgpack_encode_map 65536 = [0xde, 0x00, 0x00] ∧
    msgpack_encode_map 65536 ≠ [0xde, 65536 / 256, 65536 % 256] := by
  decide

/-- C2 (amended): the string classes behave as claimed, with the big-endian
clauses bounded by 2^16 (lengths and counts of 65536 or more are emitted
modulo 2^16; no such value arises in this system).  The 20-entry record's
map header is the 3 bytes `0xde 0x00 0x14`. -/
theorem msgpack_string_and_map_tagging (s : String) (c : Nat) :
    ((utf8 s).length ≤ 31 →
      msgpack_encode_string s = (0xa0 + (utf8 s).length) :: utf8 s) ∧
    (31 < (utf8 s).length → (utf8 s).length ≤ 255 →
      msgpack_encode_string s = 0xd9 :: (utf8 s).length :: utf8 s) ∧
    (255 < (utf8 s).length → (utf8 s).length ≤ 65535 →
      msgpack_encode_string s =
        0xda :: ((utf8 s).length / 256) :: ((utf8 s).length % 256) :: utf8 s) ∧
    (c ≤ 15 → msgpack_encode_map c = [0x80 + c]) ∧
    (15 < c → c ≤ 65535 → msgpack_encode_map c = [0xde, c / 256, c % 256]) ∧
    msgpack_encode_map 20 = [0xde, 0x00, 0x14] := by
  refine ⟨?_, ?_, ?_, ?_, ?_, by decide⟩
  · intro h
    simp only [msgpack_encode_string, msgpack_encode_bytes]
    rw [if_pos h]
  · intro h1 h2
    simp only [msgpack_encode_string, msgpack_encode_bytes]
    rw [if_neg (by omega), if_pos h2]
  · intro h1 h2
    simp only [msgpack_encode_string, msgpack_encode_bytes]
    rw [if_neg (by omega), if_neg (by omega),
      (shift_mask_be16 _ h2).1, (shift_mask_be16 _ h2).2]
  · intro h
    simp only [msgpack_encode_map]
    rw [if_pos h]
  · intro h1 h2
    simp only [msgpack_encode_map]
    rw [if_neg (by omega), (shift_mask_be16 _ h2).1, (shift_mask_be16 _ h2).2]

/-- Witness for C2 at concrete inputs, one per size class: a 3-byte string,
a 32-byte string, a 300-byte string, and counts 5, 300 and 20. -/
theorem msgpack_string_and_map_tagging_witness :
    msgpack_encode_string "abc" = [0xa3, 97, 98, 99] ∧
    msgpack_encode_string (String.mk (List.replicate 32 'b')) =
      0xd9 :: 32 :: utf8 (String.mk (List.replicate 32 'b')) ∧
    msgpack_encode_string (String.mk (List.replicate 300 'a')) =
      0xda :: 1 :: 44 :: utf8 (String.mk (List.replicate 300 'a')) ∧
    msgpack_encode_map 5 = [0x85] ∧
    msgpack_encode_map 300 = [0xde, 1, 44] ∧
    msgpack_encode_map 20 = [0xde, 0x00, 0x14] := by
  refine ⟨?_, ?_, ?_, ?_, ?_, ?_⟩
  · have h := (msgpack_string_and_map_tagging "abc" 0).1 (by decide)
    simpa using h
  · have h := (msgpack_string_and_map_tagging (String.mk (List.replicate 32 'b')) 0).2.1
      (by decide) (by decide)
    simpa using h
  · have h := (msgpack_string_and_map_tagging (String.mk (List.replicate 300 'a')) 0).2.2.1
      (by decide) (by decide)
    have hlen : (utf8 (String.mk (List.replicate 300 'a'))).length = 300 := by decide
    rw [hlen] at h
    simpa using h
  · exact (msgpack_string_and_map_tagging "" 5).2.2.2.1 (by decide)
  · have h := (msgpack_string_and_map_tagging "" 300).2.2.2.2.1 (by decide) (by decide)
    simpa using h
  · exact (msgpack_string_and_map_tagging "" 0).2.2.2.2.2

/-- The field lookup pass only observes the dict through lookups of the
listed keys. -/
theorem lookupFields_congr (d1 d2 : List (String × String)) :
    ∀ ks : List String, (∀ k ∈ ks, dictGet d1 k = dictGet d2 k) →
      lookupFields d1 ks = lookupFields d2 ks := by
  intro ks
  induction ks with
  | nil => intro _; rfl
  | cons k ks ih =>
    intro h
    simp only [lookupFields]
    rw [h k (List.mem_cons_self k ks), ih (fun a ha => h a (List.mem_cons_of_mem k ha))]

/-- A successful field lookup pass returns exactly the listed keys, in the
listed order, each paired with its looked-up value. -/
theorem lookupFields_eq_some (d : List (String × String)) :
    ∀ (ks : List String) (fields : List (String × String)),
      lookupFields d ks = some fields →
      fields = ks.map (fun k => (k, (dictGet d k).getD "")) := by
  intro ks
  induction ks with
  | nil =>
    intro fields h
    simp only [lookupFields] at h
    simpa using h.symm
  | cons k ks ih =>
    intro fields h
    simp only [lookupFields, Option.bind_eq_bind, Option.bind_eq_some] at h
    obtain ⟨v, hv, rest, hrest, hfields⟩ := h
    have hfe : (k, v) :: rest = fields := by simpa using hfields
    rw [← hfe, List.map_cons, ← ih rest hrest, hv]
    rfl

/-- C8: the simulated Self-Describing Map encoder reads the record only
through the 20 required field names and emits the keys in the fixed declared
order, so two input dicts agreeing on the required fields — in particular,
two dicts with the same field-to-value mapping but different insertion
orders — encode to identical bytes. -/
theorem simulate_field_order_invariance (d1 d2 : List (String × String)) :
    ((∀ k ∈ msgpackFieldOrder, dictGet d1 k = dictGet d2 k) →
      simulate_c_msgpack_compression d1 = simulate_c_msgpack_compression d2) ∧
    (∀ out, simulate_c_msgpack_compression d1 = some out →
      out = msgpack_encode_map 20 ++ msgpackFieldOrder.flatMap
        (fun k => msgpack_encode_string k ++
          msgpack_encode_string ((dictGet d1 k).getD ""))) := by
  constructor
  · intro h
    simp only [simulate_c_msgpack_compression]
    rw [lookupFields_congr d1 d2 msgpackFieldOrder h]
  · intro out h
    simp only [simulate_c_msgpack_compression, Option.bind_eq_bind,
      Option.bind_eq_some] at h
    obtain ⟨fields, hfields, hout⟩ := h
    have ho : msgpack_encode_map 20 ++ fields.flatMap
        (fun kv => msgpack_encode_string kv.1 ++ msgpack_encode_string kv.2) = out := by
      simpa using hout
    rw [← ho, lookupFields_eq_some d1 msgpackFieldOrder fields hfields]
    simp [List.flatMap_map]

/-- Witness for C8 at a concrete input: the literal record and its reversal
have the same field-to-value mapping, and they encode to identical bytes;
moreover the literal record's output is the declared-order emission. -/
theorem simulate_field_order_invariance_witness :
    simulate_c_msgpack_compression literal_record =
      simulate_c_msgpack_compression literal_record.reverse ∧
    (simulate_c_msgpack_compression literal_record).getD [] =
      msgpack_encode_map 20 ++ msgpackFieldOrder.flatMap
        (fun k => msgpack_encode_string k ++
          msgpack_encode_string ((dictGet literal_record k).getD "")) := by
  constructor
  · exact (simulate_field_order_invariance literal_record literal_record.reverse).1
      (by decide)
  · exact (simulate_field_order_invariance literal_record literal_record).2
      ((simulate_c_msgpack_compression literal_record).getD []) (by decide)

/-- Decoding a tagged string emitted by the encoder recovers the string's
bytes and leaves the rest of the stream untouched, for any byte length up to
the 2-byte size class bound. -/
theorem decode_str_encode_bytes (bs rest : List Nat) (h : bs.length ≤ 65535) :
    msgpack_decode_str (msgpack_encode_bytes bs ++ rest) = some (bs, rest) := by
  have hL : ¬((bs ++ rest).length < bs.length) := by
    simp only [List.length_append]
    omega
  by_cases h31 : bs.length ≤ 31
  · have h1 : 0xa0 ≤ 0xa0 + bs.length := by omega
    have h2 : 0xa0 + bs.length ≤ 0xbf := by omega
    have hlen : 0xa0 + bs.length - 0xa0 = bs.length := by omega
    simp [msgpack_encode_bytes, msgpack_decode_str, h31, h1, h2, hlen, hL,
      List.take_left, List.drop_left]
  · by_cases h255 : bs.length ≤ 255
    · simp [msgpack_encode_bytes, msgpack_decode_str, h31, h255, hL,
        List.take_left, List.drop_left]
    · have hbe : (bs.length >>> 8 &&& 255) * 256 + (bs.length &&& 255) = bs.length := by
        have := shift_mask_be16 bs.length h
        omega
      simp [msgpack_encode_bytes, msgpack_decode_str, h31, h255, hL, hbe,
        List.take_left, List.drop_left]

/-- Decoding `n` pairs from the encoder's pair stream recovers each pair's
UTF-8 bytes, in order, and leaves the trailing stream untouched. -/
theorem decode_pairs_encode (l : List (String × String)) (rest : List Nat)
    (h : ∀ p ∈ l, (utf8 p.1).length ≤ 65535 ∧ (utf8 p.2).length ≤ 65535) :
    msgpack_decode_pairs l.length
      ((l.flatMap (fun kv => msgpack_encode_bytes (utf8 kv.1) ++
        msgpack_encode_bytes (utf8 kv.2))) ++ rest) =
      some (l.map (fun p => (utf8 p.1, utf8 p.2)), rest) := by
  induction l generalizing rest with
  | nil => simp [msgpack_decode_pairs]
  | cons p l ih =>
    have hp := h p (List.mem_cons_self p l)
    have hl : ∀ q ∈ l, (utf8 q.1).length ≤ 65535 ∧ (utf8 q.2).length ≤ 65535 :=
      fun q hq => h q (List.mem_cons_of_mem p hq)
    simp only [List.length_cons, List.flatMap_cons, msgpack_decode_pairs,
      List.append_assoc]
    rw [decode_str_encode_bytes _ _ hp.1]
    simp only [Option.bind_eq_bind, Option.some_bind]
    rw [decode_str_encode_bytes _ _ hp.2]
    simp only [Option.some_bind]
    rw [ih rest hl]
    rfl

/-- C9: decoding the Self-Describing Map encoding of a valid 20-field record
yields the original field-to-string mapping, field for field (each decoded
string given by its UTF-8 bytes). -/
theorem msgpack_roundtrip (r : List (String × String)) (h20 : r.length = 20)
    (h : ∀ p ∈ r, (utf8 p.1).length ≤ 65535 ∧ (utf8 p.2).length ≤ 65535) :
    msgpack_decode_map (msgpack_packb r) =
      some (r.map (fun p => (utf8 p.1, utf8 p.2))) := by
  have hdr : msgpack_encode_map r.length = [0xde, 0, 20] := by
    rw [h20]
    decide
  have hpairs := decode_pairs_encode r [] h
  rw [List.append_nil, h20] at hpairs
  simp [msgpack_packb, hdr, msgpack_decode_map, hpairs]

/-- Witness for C9 at the literal record of spec section 8. -/
theorem msgpack_roundtrip_witness :
    msgpack_decode_map (msgpack_packb literal_record) =
      some (literal_record.map (fun p => (utf8 p.1, utf8 p.2))) :=
  msgpack_roundtrip literal_record (by decide) (by decide)

/-- A decimal digit is not whitespace. -/
theorem digit_not_ws (c : Char) (h : c.isDigit = true) : c.isWhitespace = false := by
  by_contra hws
  have hws' : c.isWhitespace = true := by
    cases hb : c.isWhitespace
    · exact absurd hb hws
    · rfl
  have hc : c = ' ' ∨ c = '\t' ∨ c = '\r' ∨ c = '\n' := by
    simpa [Char.isWhitespace, or_assoc] using hws'
  rcases hc with rfl | rfl | rfl | rfl <;> exact absurd h (by decide)

/-- A decimal digit is not a sign character. -/
theorem digit_not_sign (c : Char) (h : c.isDigit = true) : ¬(c = '-' ∨ c = '+') := by
  rintro (rfl | rfl) <;> exact absurd h (by decide)

/-- Stripping whitespace from a whitespace-free list is the identity. -/
theorem pyStrip_eq_self (cs : List Char) (h : ∀ x ∈ cs, x.isWhitespace = false) :
    pyStrip cs = cs := by
  unfold pyStrip
  have h1 : cs.dropWhile Char.isWhitespace = cs := by
    cases cs with
    | nil => rfl
    | cons a t =>
      rw [List.dropWhile_cons, if_neg (by simp [h a (List.mem_cons_self a t)])]
  rw [h1]
  have h2 : cs.reverse.dropWhile Char.isWhitespace = cs.reverse := by
    cases hrev : cs.reverse with
    | nil => rfl
    | cons a t =>
      have ha : a ∈ cs := by
        have hm : a ∈ cs.reverse := by
          rw [hrev]
          exact List.mem_cons_self a t
        simpa using hm
      rw [List.dropWhile_cons, if_neg (by simp [h a ha])]
  rw [h2, List.reverse_reverse]

/-- An all-digit list is fully consumed by the digit scanner. -/
theorem all_digits_scan (ds : List Char) (h : ∀ c ∈ ds, c.isDigit = true) :
    ds.takeWhile Char.isDigit = ds ∧ ds.dropWhile Char.isDigit = [] :=
  ⟨List.takeWhile_eq_self_iff.mpr (by simpa using h),
   List.dropWhile_eq_nil_iff.mpr (by simpa using h)⟩

/-- A nonempty digit run, optionally followed by a dot and a nonempty digit
run, is a valid float-literal body. -/
theorem pyFloatBody_token (ds fp1 : List Char) (hds : ∀ c ∈ ds, c.isDigit = true)
    (hne : ds ≠ [])
    (hfp : fp1 = [] ∨ ∃ fs, fs ≠ [] ∧ (∀ c ∈ fs, c.isDigit = true) ∧ fp1 = '.' :: fs) :
    pyFloatBody (ds ++ fp1) = true := by
  rcases hfp with rfl | ⟨fs, hfsne, hfs, rfl⟩
  · rw [List.append_nil]
    unfold pyFloatBody
    rw [(all_digits_scan ds hds).2, (all_digits_scan ds hds).1]
    simp [pyExpTail, hne]
  · unfold pyFloatBody
    rw [List.dropWhile_append_of_pos (by simpa using hds), List.dropWhile_cons,
      if_neg (by simp)]
    simp only [if_pos rfl]
    rw [(all_digits_scan fs hfs).2, (all_digits_scan fs hfs).1]
    simp [pyExpTail, hfsne]

/-- Any token produced by the number matcher is a valid, whitespace-free,
nonempty Python float literal. -/
theorem token_props (sign ds fp1 : List Char)
    (hsign : sign = [] ∨ ∃ c, (c = '-' ∨ c = '+') ∧ sign = [c])
    (hds : ∀ c ∈ ds, c.isDigit = true) (hne : ds ≠ [])
    (hfp : fp1 = [] ∨ ∃ fs, fs ≠ [] ∧ (∀ c ∈ fs, c.isDigit = true) ∧ fp1 = '.' :: fs) :
    pyFloatTok (sign ++ ds ++ fp1) = true ∧
    (∀ x ∈ sign ++ ds ++ fp1, x.isWhitespace = false) ∧
    sign ++ ds ++ fp1 ≠ [] := by
  have hbody := pyFloatBody_token ds fp1 hds hne hfp
  have hws : ∀ x ∈ sign ++ ds ++ fp1, x.isWhitespace = false := by
    intro x hx
    rw [List.append_assoc] at hx
    rcases List.mem_append.mp hx with hx | hx
    · rcases hsign with rfl | ⟨c, hc, rfl⟩
      · simp at hx
      · have : x = c := by simpa using hx
        subst this
        rcases hc with rfl | rfl <;> decide
    · rcases List.mem_append.mp hx with hx | hx
      · exact digit_not_ws x (hds x hx)
      · rcases hfp with rfl | ⟨fs, _, hfs, rfl⟩
        · simp at hx
        · rcases List.mem_cons.mp hx with rfl | hx
          · decide
          · exact digit_not_ws x (hfs x hx)
  refine ⟨?_, hws, ?_⟩
  · rcases hsign with rfl | ⟨c, hc, rfl⟩
    · rcases ds with _ | ⟨d, ds2⟩
      · exact absurd rfl hne
      · have hd : d.isDigit = true := hds d (List.mem_cons_self d ds2)
        have hred : pyFloatTok (d :: (ds2 ++ fp1)) =
            if d = '-' ∨ d = '+' then pyFloatBody (ds2 ++ fp1)
            else pyFloatBody (d :: (ds2 ++ fp1)) := rfl
        show pyFloatTok (d :: (ds2 ++ fp1)) = true
        rw [hred, if_neg (digit_not_sign d hd)]
        exact hbody
    · have hred : pyFloatTok (c :: (ds ++ fp1)) =
          if c = '-' ∨ c = '+' then pyFloatBody (ds ++ fp1)
          else pyFloatBody (c :: (ds ++ fp1)) := rfl
      show pyFloatTok (c :: (ds ++ fp1)) = true
      rw [hred, if_pos hc]
      exact hbody
  · rcases ds with _ | ⟨d, ds2⟩
    · exact absurd rfl hne
    · rcases hsign with rfl | ⟨c, _, rfl⟩ <;> simp

/-- The fractional-part matcher consumes either nothing or a dot followed by
a nonempty digit run. -/
theorem fracPart_spec (r2 : List Char) :
    (fracPart r2).1 = [] ∨
      (∃ fs, fs ≠ [] ∧ (∀ c ∈ fs, c.isDigit = true) ∧ (fracPart r2).1 = '.' :: fs) := by
  rcases r2 with _ | ⟨c, r3⟩
  · left
    rfl
  · by_cases hc : c = '.'
    · subst hc
      by_cases hfs : (r3.takeWhile Char.isDigit).isEmpty
      · left
        simp [fracPart, hfs]
      · right
        refine ⟨r3.takeWhile Char.isDigit, by simpa using hfs,
          fun x hx => List.mem_takeWhile_imp hx, ?_⟩
        simp [fracPart, hfs]
    · left
      simp [fracPart, hc]

/-- Every token returned by the number matcher is a whitespace-free,
nonempty Python float literal. -/
theorem matchNumAt_token (cs tok rest : List Char) (h : matchNumAt cs = some (tok, rest)) :
    pyFloatTok tok = true ∧ (∀ x ∈ tok, x.isWhitespace = false) ∧ tok ≠ [] := by
  rcases cs with _ | ⟨c, r⟩
  · simp [matchNumAt] at h
  · by_cases hc : c = '-' ∨ c = '+'
    · simp only [matchNumAt, if_pos hc] at h
      by_cases hde : (r.takeWhile Char.isDigit).isEmpty
      · rw [if_pos hde] at h
        exact absurd h (by simp)
      · rw [if_neg hde] at h
        have htok : [c] ++ r.takeWhile Char.isDigit ++
            (fracPart (r.dropWhile Char.isDigit)).1 = tok := by
          simpa using congrArg (fun o => (o.getD ([], [])).1) h
        rw [← htok]
        exact token_props [c] (r.takeWhile Char.isDigit) _
          (Or.inr ⟨c, hc, rfl⟩) (fun x hx => List.mem_takeWhile_imp hx)
          (by simpa using hde) (fracPart_spec _)
    · simp only [matchNumAt, if_neg hc] at h
      by_cases hde : ((c :: r).takeWhile Char.isDigit).isEmpty
      · rw [if_pos hde] at h
        exact absurd h (by simp)
      · rw [if_neg hde] at h
        have htok : [] ++ (c :: r).takeWhile Char.isDigit ++
            (fracPart ((c :: r).dropWhile Char.isDigit)).1 = tok := by
          simpa using congrArg (fun o => (o.getD ([], [])).1) h
        rw [← htok]
        exact token_props [] ((c :: r).takeWhile Char.isDigit) _
          (Or.inl rfl) (fun x hx => List.mem_takeWhile_imp hx)
          (by simpa using hde) (fracPart_spec _)

/-- Every token collected by the findall scan is a whitespace-free, nonempty
Python float literal. -/
theorem findNumsAux_token (fuel : Nat) :
    ∀ cs tok, tok ∈ findNumsAux fuel cs →
      pyFloatTok tok = true ∧ (∀ x ∈ tok, x.isWhitespace = false) ∧ tok ≠ [] := by
  induction fuel with
  | zero =>
    intro cs tok h
    simp [findNumsAux] at h
  | succ f ih =>
    intro cs tok h
    rcases cs with _ | ⟨c, r⟩
    · simp [findNumsAux] at h
    · rcases hm : matchNumAt (c :: r) with _ | ⟨t2, rest2⟩
      · rw [findNumsAux, hm] at h
        exact ih r tok h
      · rw [findNumsAux, hm] at h
        rcases List.mem_cons.mp h with rfl | hmem
        · exact matchNumAt_token (c :: r) tok rest2 hm
        · exact ih rest2 tok hmem

/-- Python `float` accepts every scanner token, returning it unchanged as
the float's literal. -/
theorem pyFloat_token (tok : List Char) (h1 : pyFloatTok tok = true)
    (h2 : ∀ x ∈ tok, x.isWhitespace = false) :
    pyFloat (String.mk tok) = some (PyFloat.mk (String.mk tok)) := by
  unfold pyFloat
  have hst : pyStrip (String.mk tok).data = tok := pyStrip_eq_self tok h2
  rw [hst, if_pos h1]

/-- Elementwise success propagates through the optional map. -/
theorem optMapM_eq_some_of {α β : Type} (f : α → Option β) (g : α → β) (l : List α)
    (h : ∀ a ∈ l, f a = some (g a)) : optMapM f l = some (l.map g) := by
  induction l with
  | nil => rfl
  | cons a t ih =>
    simp only [optMapM, h a (List.mem_cons_self a t), Option.bind_eq_bind,
      Option.some_bind, ih (fun b hb => h b (List.mem_cons_of_mem a hb))]
    rfl

/-- C6: `parse_acc` extracts all signed-decimal tokens and returns the 3
floats exactly when 3 tokens are found, failing with the malformed-vector
error otherwise; the four documented separator styles all yield
`[-993.9, -27.1, -52.0]` and the 2-token input fails. -/
theorem parse_acc_tokenization (s : String) :
    parse_acc "-993.9 -27.1 -52.0" =
      .ok [PyFloat.mk "-993.9", PyFloat.mk "-27.1", PyFloat.mk "-52.0"] ∧
    parse_acc "-993.9,-27.1,-52.0" =
      .ok [PyFloat.mk "-993.9", PyFloat.mk "-27.1", PyFloat.mk "-52.0"] ∧
    parse_acc "-993.9,-27.1 -52.0" =
      .ok [PyFloat.mk "-993.9", PyFloat.mk "-27.1", PyFloat.mk "-52.0"] ∧
    parse_acc "-993.9-27.1-52.0" =
      .ok [PyFloat.mk "-993.9", PyFloat.mk "-27.1", PyFloat.mk "-52.0"] ∧
    parse_acc "-993.9 -27.1" = .error .malformedVector ∧
    ((findNums s).length = 3 →
      parse_acc s = .ok ((findNums s).map (fun t => PyFloat.mk (String.mk t)))) ∧
    ((findNums s).length ≠ 3 → parse_acc s = .error .malformedVector) := by
  refine ⟨by decide, by decide, by decide, by decide, by decide, ?_, ?_⟩
  · intro h3
    unfold parse_acc
    rw [if_neg (fun hn => hn h3)]
    rw [optMapM_eq_some_of (fun t => pyFloat (String.mk t))
      (fun t => PyFloat.mk (String.mk t)) (findNums s)
      (fun t ht => pyFloat_token t (findNumsAux_token s.data.length s.data t ht).1
        (findNumsAux_token s.data.length s.data t ht).2.1)]
  · intro hne
    unfold parse_acc
    rw [if_pos hne]

/-- Witness for C6 at concrete inputs: a 4-token string is rejected as
malformed, and a fresh 3-token string parses to its 3 literals. -/
theorem parse_acc_tokenization_witness :
    parse_acc "1 2 3 4" = .error .malformedVector ∧
    parse_acc "0.5,1.5,2.5" =
      .ok ((findNums "0.5,1.5,2.5").map (fun t => PyFloat.mk (String.mk t))) := by
  constructor
  · exact (parse_acc_tokenization "1 2 3 4").2.2.2.2.2.2 (by decide)
  · exact (parse_acc_tokenization "0.5,1.5,2.5").2.2.2.2.2.1 (by decide)

/-- Bind on `Except` after a success reduces to the continuation. -/
theorem except_ok_bind {ε α β : Type} (a : α) (f : α → Except ε β) :
    (Except.ok a >>= f : Except ε β) = f a := rfl

/-- Bind on `Except` propagates an error. -/
theorem except_error_bind {ε α β : Type} (e : ε) (f : α → Except ε β) :
    ((Except.error e : Except ε α) >>= f) = Except.error e := rfl

/-- The format string accumulated over the declared field order:
`>HHHBHBBfffffffHBfffffBf` as a code list. -/
theorem struct_format_eval : struct_format =
    [.H, .H, .H, .B, .H, .B, .B, .F, .F, .F, .F, .F, .F, .H, .B, .F, .F, .F, .F, .F, .B, .F] := by
  decide

/-- The value list accumulated over the declared field order. -/
theorem struct_vals_eval (td : TypedData) : struct_vals td =
    [.int ((utf8 td.msisdn).length : Int), .int ((utf8 td.iso6346).length : Int),
     .int ((utf8 td.time).length : Int), .int td.rssi, .int ((utf8 td.cgi).length : Int),
     .int td.ble_m, .int td.bat_soc] ++ (td.acc.take 3).map PackVal.float ++
    [.float td.temperature, .float td.humidity, .float td.pressure,
     .int ((utf8 td.door).length : Int), .int td.gnss, .float td.latitude,
     .float td.longitude, .float td.altitude, .float td.speed, .float td.heading,
     .int td.nsat, .float td.hdop] := rfl

/-- The deferred string bytes accumulated over the declared field order. -/
theorem struct_strs_eval (td : TypedData) : struct_strs td =
    [utf8 td.msisdn, utf8 td.iso6346, utf8 td.time, utf8 td.cgi, utf8 td.door] := rfl

/-- For in-range values, packing the accumulated format against the
accumulated values yields exactly the fixed-width block of the declared
layout. -/
theorem struct_pack_eval (packF : PyFloat → List Nat) (td : TypedData)
    (a1 a2 a3 : PyFloat) (htake : td.acc.take 3 = [a1, a2, a3])
    (h1 : ((utf8 td.msisdn).length : Int) ≤ 65535)
    (h2 : ((utf8 td.iso6346).length : Int) ≤ 65535)
    (h3 : ((utf8 td.time).length : Int) ≤ 65535)
    (h4 : ((utf8 td.cgi).length : Int) ≤ 65535)
    (h5 : ((utf8 td.door).length : Int) ≤ 65535)
    (hr1 : 0 ≤ td.rssi ∧ td.rssi ≤ 255) (hr2 : 0 ≤ td.ble_m ∧ td.ble_m ≤ 255)
    (hr3 : 0 ≤ td.bat_soc ∧ td.bat_soc ≤ 255) (hr4 : 0 ≤ td.gnss ∧ td.gnss ≤ 255)
    (hr5 : 0 ≤ td.nsat ∧ td.nsat ≤ 255) :
    structPack packF struct_format (struct_vals td) = some (
      [(utf8 td.msisdn).length / 256, (utf8 td.msisdn).length % 256,
       (utf8 td.iso6346).length / 256, (utf8 td.iso6346).length % 256,
       (utf8 td.time).length / 256, (utf8 td.time).length % 256,
       td.rssi.toNat,
       (utf8 td.cgi).length / 256, (utf8 td.cgi).length % 256,
       td.ble_m.toNat, td.bat_soc.toNat] ++
      packF a1 ++ packF a2 ++ packF a3 ++
      packF td.temperature ++ packF td.humidity ++ packF td.pressure ++
      [(utf8 td.door).length / 256, (utf8 td.door).length % 256, td.gnss.toNat] ++
      packF td.latitude ++ packF td.longitude ++ packF td.altitude ++
      packF td.speed ++ packF td.heading ++
      [td.nsat.toNat] ++ packF td.hdop) := by
  rw [struct_format_eval, struct_vals_eval, htake]
  simp only [List.map_cons, List.map_nil, List.cons_append, List.nil_append]
  simp [structPack, packOne, h1, h2, h3, h4, h5, hr1.1, hr1.2, hr2.1, hr2.2, hr3.1, hr3.2,
    hr4.1, hr4.2, hr5.1, hr5.2, Int.toNat_natCast, Int.natCast_nonneg]

/-- The complete Compact Struct encoder output for an in-range record: the
fixed-width block in declared order, then the five strings' UTF-8 bytes,
passed to the compressor. -/
theorem struct_zlib_compress_eval (compress : List Nat → List Nat)
    (packF : PyFloat → List Nat) (r : StringRecord) (td : TypedData)
    (a1 a2 a3 : PyFloat)
    (hconv : convert_to_typed_data r = .ok td)
    (htake : td.acc.take 3 = [a1, a2, a3])
    (h1 : ((utf8 td.msisdn).length : Int) ≤ 65535)
    (h2 : ((utf8 td.iso6346).length : Int) ≤ 65535)
    (h3 : ((utf8 td.time).length : Int) ≤ 65535)
    (h4 : ((utf8 td.cgi).length : Int) ≤ 65535)
    (h5 : ((utf8 td.door).length : Int) ≤ 65535)
    (hr1 : 0 ≤ td.rssi ∧ td.rssi ≤ 255) (hr2 : 0 ≤ td.ble_m ∧ td.ble_m ≤ 255)
    (hr3 : 0 ≤ td.bat_soc ∧ td.bat_soc ≤ 255) (hr4 : 0 ≤ td.gnss ∧ td.gnss ≤ 255)
    (hr5 : 0 ≤ td.nsat ∧ td.nsat ≤ 255) :
    struct_zlib_compress compress packF r = .ok (compress (
      ([(utf8 td.msisdn).length / 256, (utf8 td.msisdn).length % 256,
        (utf8 td.iso6346).length / 256, (utf8 td.iso6346).length % 256,
        (utf8 td.time).length / 256, (utf8 td.time).length % 256,
        td.rssi.toNat,
        (utf8 td.cgi).length / 256, (utf8 td.cgi).length % 256,
        td.ble_m.toNat, td.bat_soc.toNat] ++
       packF a1 ++ packF a2 ++ packF a3 ++
       packF td.temperature ++ packF td.humidity ++ packF td.pressure ++
       [(utf8 td.door).length / 256, (utf8 td.door).length % 256, td.gnss.toNat] ++
       packF td.latitude ++ packF td.longitude ++ packF td.altitude ++
       packF td.speed ++ packF td.heading ++
       [td.nsat.toNat] ++ packF td.hdop) ++
      (utf8 td.msisdn ++ utf8 td.iso6346 ++ utf8 td.time ++ utf8 td.cgi ++ utf8 td.door))) := by
  have hpack := struct_pack_eval packF td a1 a2 a3 htake h1 h2 h3 h4 h5 hr1 hr2 hr3 hr4 hr5
  simp only [struct_zlib_compress, hconv, except_ok_bind, hpack, struct_strs_eval]
  simp [List.append_assoc]

/-- A successful pack consumed format codes and values in lockstep. -/
theorem structPack_length (packF : PyFloat → List Nat) :
    ∀ codes vals b, structPack packF codes vals = some b → codes.length = vals.length := by
  intro codes
  induction codes with
  | nil =>
    intro vals b h
    cases vals with
    | nil => rfl
    | cons v vs => simp [structPack] at h
  | cons c cs ih =>
    intro vals b h
    cases vals with
    | nil => simp [structPack] at h
    | cons v vs =>
      simp only [structPack, Option.bind_eq_bind, Option.bind_eq_some] at h
      obtain ⟨b1, hb1, rest, hrest, hfin⟩ := h
      simp [ih vs rest hrest]

/-- A successful pack packed every code/value pair individually. -/
theorem structPack_mem (packF : PyFloat → List Nat) :
    ∀ codes vals b, structPack packF codes vals = some b →
      ∀ cv ∈ codes.zip vals, ∃ bb, packOne packF cv.1 cv.2 = some bb := by
  intro codes
  induction codes with
  | nil =>
    intro vals b h cv hcv
    simp at hcv
  | cons c cs ih =>
    intro vals b h cv hcv
    cases vals with
    | nil => simp [structPack] at h
    | cons v vs =>
      simp only [structPack, Option.bind_eq_bind, Option.bind_eq_some] at h
      obtain ⟨b1, hb1, rest, hrest, hfin⟩ := h
      rcases List.mem_cons.mp (by simpa using hcv) with rfl | hmem
      · exact ⟨b1, hb1⟩
      · exact ih vs rest hrest cv hmem

/-- A byte-format pack succeeds only for values in `0..255`. -/
theorem packOne_B_range (packF : PyFloat → List Nat) (n : Int) (bb : List Nat)
    (h : packOne packF .B (.int n) = some bb) : 0 ≤ n ∧ n ≤ 255 := by
  by_cases hc : 0 ≤ n ∧ n ≤ 255
  · exact hc
  · have hred : packOne packF .B (.int n) =
        if 0 ≤ n ∧ n ≤ 255 then some [n.toNat] else none := rfl
    rw [hred, if_neg hc] at h
    exact absurd h (by simp)

/-- A successful conversion records exactly the parse results of every field;
in particular the accelerometer list is the whitespace split of `acc` mapped
through Python `float`. -/
theorem convert_ok_elim (r : StringRecord) (td : TypedData)
    (h : convert_to_typed_data r = .ok td) :
    optMapM (fun t => pyFloat (String.mk t)) (pySplitWs r.acc.data) = some td.acc ∧
    pyInt r.rssi = some td.rssi ∧ pyInt r.ble_m = some td.ble_m ∧
    pyInt r.bat_soc = some td.bat_soc ∧ pyInt r.gnss = some td.gnss ∧
    pyInt r.nsat = some td.nsat ∧ td.msisdn = r.msisdn ∧ td.iso6346 = r.iso6346 ∧
    td.time = r.time ∧ td.cgi = r.cgi ∧ td.door = r.door := by
  unfold convert_to_typed_data at h
  cases e1 : pyInt r.rssi with
  | none =>
    rw [e1] at h
    simp only [parseOr, except_error_bind] at h
    exact absurd h (by simp)
  | some v1 =>
  rw [e1] at h
  simp only [parseOr, except_ok_bind] at h
  cases e2 : pyInt r.ble_m with
  | none =>
    rw [e2] at h
    simp only [parseOr, except_error_bind] at h
    exact absurd h (by simp)
  | some v2 =>
  rw [e2] at h
  simp only [parseOr, except_ok_bind] at h
  cases e3 : pyInt r.bat_soc with
  | none =>
    rw [e3] at h
    simp only [parseOr, except_error_bind] at h
    exact absurd h (by simp)
  | some v3 =>
  rw [e3] at h
  simp only [parseOr, except_ok_bind] at h
  cases e4 : pyInt r.gnss with
  | none =>
    rw [e4] at h
    simp only [parseOr, except_error_bind] at h
    exact absurd h (by simp)
  | some v4 =>
  rw [e4] at h
  simp only [parseOr, except_ok_bind] at h
  cases e5 : pyInt r.nsat with
  | none =>
    rw [e5] at h
    simp only [parseOr, except_error_bind] at h
    exact absurd h (by simp)
  | some v5 =>
  rw [e5] at h
  simp only [parseOr, except_ok_bind] at h
  cases e6 : pyFloat r.temperature with
  | none =>
    rw [e6] at h
    simp only [parseOr, except_error_bind] at h
    exact absurd h (by simp)
  | some v6 =>
  rw [e6] at h
  simp only [parseOr, except_ok_bind] at h
  cases e7 : pyFloat r.humidity with
  | none =>
    rw [e7] at h
    simp only [parseOr, except_error_bind] at h
    exact absurd h (by simp)
  | some v7 =>
  rw [e7] at h
  simp only [parseOr, except_ok_bind] at h
  cases e8 : pyFloat r.pressure with
  | none =>
    rw [e8] at h
    simp only [parseOr, except_error_bind] at h
    exact absurd h (by simp)
  | some v8 =>
  rw [e8] at h
  simp only [parseOr, except_ok_bind] at h
  cases e9 : pyFloat r.latitude with
  | none =>
    rw [e9] at h
    simp only [parseOr, except_error_bind] at h
    exact absurd h (by simp)
  | some v9 =>
  rw [e9] at h
  simp only [parseOr, except_ok_bind] at h
  cases e10 : pyFloat r.longitude with
  | none =>
    rw [e10] at h
    simp only [parseOr, except_error_bind] at h
    exact absurd h (by simp)
  | some v10 =>
  rw [e10] at h
  simp only [parseOr, except_ok_bind] at h
  cases e11 : pyFloat r.altitude with
  | none =>
    rw [e11] at h
    simp only [parseOr, except_error_bind] at h
    exact absurd h (by simp)
  | some v11 =>
  rw [e11] at h
  simp only [parseOr, except_ok_bind] at h
  cases e12 : pyFloat r.speed with
  | none =>
    rw [e12] at h
    simp only [parseOr, except_error_bind] at h
    exact absurd h (by simp)
  | some v12 =>
  rw [e12] at h
  simp only [parseOr, except_ok_bind] at h
  cases e13 : pyFloat r.heading with
  | none =>
    rw [e13] at h
    simp only [parseOr, except_error_bind] at h
    exact absurd h (by simp)
  | some v13 =>
  rw [e13] at h
  simp only [parseOr, except_ok_bind] at h
  cases e14 : pyFloat r.hdop with
  | none =>
    rw [e14] at h
    simp only [parseOr, except_error_bind] at h
    exact absurd h (by simp)
  | some v14 =>
  rw [e14] at h
  simp only [parseOr, except_ok_bind] at h
  cases e15 : optMapM (fun t => pyFloat (String.mk t)) (pySplitWs r.acc.data) with
  | none =>
    rw [e15] at h
    simp only [parseOr, except_error_bind] at h
    exact absurd h (by simp)
  | some vacc =>
  rw [e15] at h
  simp only [parseOr, except_ok_bind, Except.ok.injEq] at h
  subst h
  refine ⟨?_, ?_, ?_, ?_, ?_, ?_, ?_, ?_, ?_, ?_, ?_⟩ <;>
    simp [e15, e1, e2, e3, e4, e5]

/-- A successful Compact Struct encode forces at least 3 accelerometer
components and all five counters into the unsigned-byte range. -/
theorem struct_ok_acc_and_ranges (compress : List Nat → List Nat)
    (packF : PyFloat → List Nat) (r : StringRecord) (td : TypedData) (out : List Nat)
    (hconv : convert_to_typed_data r = .ok td)
    (hout : struct_zlib_compress compress packF r = .ok out) :
    3 ≤ td.acc.length ∧
    (0 ≤ td.rssi ∧ td.rssi ≤ 255) ∧ (0 ≤ td.ble_m ∧ td.ble_m ≤ 255) ∧
    (0 ≤ td.bat_soc ∧ td.bat_soc ≤ 255) ∧ (0 ≤ td.gnss ∧ td.gnss ≤ 255) ∧
    (0 ≤ td.nsat ∧ td.nsat ≤ 255) := by
  simp only [struct_zlib_compress, hconv, except_ok_bind] at hout
  rcases hp : structPack packF struct_format (struct_vals td) with _ | b
  · rw [hp] at hout
    exact absurd hout (by simp)
  · have hlen := structPack_length packF _ _ _ hp
    rw [struct_format_eval, struct_vals_eval] at hlen
    simp [List.length_append, List.length_take] at hlen
    have hacc3 : 3 ≤ td.acc.length := by omega
    have h3 : (td.acc.take 3).length = 3 := by
      simp [List.length_take]
      omega
    obtain ⟨a1, a2, a3, htake⟩ := List.length_eq_three.mp h3
    have hmem := structPack_mem packF _ _ _ hp
    rw [struct_format_eval, struct_vals_eval, htake] at hmem
    simp only [List.map_cons, List.map_nil, List.cons_append, List.nil_append] at hmem
    refine ⟨hacc3, ?_, ?_, ?_, ?_, ?_⟩
    · obtain ⟨bb, hbb⟩ := hmem (.B, .int td.rssi) (by simp)
      exact packOne_B_range packF td.rssi bb hbb
    · obtain ⟨bb, hbb⟩ := hmem (.B, .int td.ble_m) (by simp)
      exact packOne_B_range packF td.ble_m bb hbb
    · obtain ⟨bb, hbb⟩ := hmem (.B, .int td.bat_soc) (by simp)
      exact packOne_B_range packF td.bat_soc bb hbb
    · obtain ⟨bb, hbb⟩ := hmem (.B, .int td.gnss) (by simp)
      exact packOne_B_range packF td.gnss bb hbb
    · obtain ⟨bb, hbb⟩ := hmem (.B, .int td.nsat) (by simp)
      exact packOne_B_range packF td.nsat bb hbb

/-- With fewer than 3 accelerometer components the fixed-width pack step
fails: the format expects 3 floats but the value list is short. -/
theorem struct_acc_short_fails (compress : List Nat → List Nat)
    (packF : PyFloat → List Nat) (r : StringRecord) (td : TypedData)
    (hconv : convert_to_typed_data r = .ok td) (hlt : td.acc.length < 3) :
    struct_zlib_compress compress packF r = .error .packError := by
  simp only [struct_zlib_compress, hconv, except_ok_bind]
  rcases hp : structPack packF struct_format (struct_vals td) with _ | b
  · rfl
  · exfalso
    have hlen := structPack_length packF _ _ _ hp
    rw [struct_format_eval, struct_vals_eval] at hlen
    simp [List.length_append, List.length_take] at hlen
    omega

/-- C4: for an in-range record, the Compact Struct pre-compression buffer is
exactly the fixed-width block in declared 20-field order — 2-byte big-endian
UTF-8 lengths for the 5 textual fields, 1 unsigned byte for each of the 5
small integers, and the 12 float encodings (3 accelerometer components
first among them) — followed by the 5 strings' UTF-8 bytes concatenated
after the entire block; the compressor's output on that buffer is the
encoder's result.  The IEEE-754 binary32 big-endian float encoding and the
zlib level-9 compressor are the abstract primitives `packF` and `compress`. -/
theorem struct_layout_and_compress (compress : List Nat → List Nat)
    (packF : PyFloat → List Nat) (r : StringRecord) (td : TypedData)
    (a1 a2 a3 : PyFloat)
    (hconv : convert_to_typed_data r = .ok td)
    (hacc : td.acc = [a1, a2, a3])
    (h1 : (utf8 td.msisdn).length ≤ 65535) (h2 : (utf8 td.iso6346).length ≤ 65535)
    (h3 : (utf8 td.time).length ≤ 65535) (h4 : (utf8 td.cgi).length ≤ 65535)
    (h5 : (utf8 td.door).length ≤ 65535)
    (hr1 : 0 ≤ td.rssi ∧ td.rssi ≤ 255) (hr2 : 0 ≤ td.ble_m ∧ td.ble_m ≤ 255)
    (hr3 : 0 ≤ td.bat_soc ∧ td.bat_soc ≤ 255) (hr4 : 0 ≤ td.gnss ∧ td.gnss ≤ 255)
    (hr5 : 0 ≤ td.nsat ∧ td.nsat ≤ 255) :
    struct_zlib_compress compress packF r = .ok (compress (
      ([(utf8 td.msisdn).length / 256, (utf8 td.msisdn).length % 256,
        (utf8 td.iso6346).length / 256, (utf8 td.iso6346).length % 256,
        (utf8 td.time).length / 256, (utf8 td.time).length % 256,
        td.rssi.toNat,
        (utf8 td.cgi).length / 256, (utf8 td.cgi).length % 256,
        td.ble_m.toNat, td.bat_soc.toNat] ++
       packF a1 ++ packF a2 ++ packF a3 ++
       packF td.temperature ++ packF td.humidity ++ packF td.pressure ++
       [(utf8 td.door).length / 256, (utf8 td.door).length % 256, td.gnss.toNat] ++
       packF td.latitude ++ packF td.longitude ++ packF td.altitude ++
       packF td.speed ++ packF td.heading ++
       [td.nsat.toNat] ++ packF td.hdop) ++
      (utf8 td.msisdn ++ utf8 td.iso6346 ++ utf8 td.time ++ utf8 td.cgi ++ utf8 td.door))) := by
  refine struct_zlib_compress_eval compress packF r td a1 a2 a3 hconv ?_
    (by exact_mod_cast h1) (by exact_mod_cast h2) (by exact_mod_cast h3)
    (by exact_mod_cast h4) (by exact_mod_cast h5) hr1 hr2 hr3 hr4 hr5
  rw [hacc]
  rfl

/-- Witness for C4 at a concrete record with 1-byte strings, unit counters
and a 4-zero-byte float packer. -/
theorem struct_layout_and_compress_witness :
    struct_zlib_compress id pfZero tinyRecord =
      .ok ([0, 1, 0, 1, 0, 1, 1, 0, 1, 1, 1] ++ List.replicate 24 0 ++
        [0, 1, 1] ++ List.replicate 20 0 ++ [1] ++ [0, 0, 0, 0] ++
        [109, 105, 116, 99, 100]) := by
  have h := struct_layout_and_compress id pfZero tinyRecord tinyTD
    (PyFloat.mk "1.0") (PyFloat.mk "2.0") (PyFloat.mk "3.0")
    (by decide) (by decide) (by decide) (by decide) (by decide) (by decide)
    (by decide) (by decide) (by decide) (by decide) (by decide) (by decide)
  exact h.trans (by decide)

/-- Counterexample to C7: the Compact Struct conversion splits the
accelerometer on whitespace only, so the documented comma-separated style —
which the claim says is accepted — fails the encode; and a 4-token
accelerometer — which the claim says must fail — encodes successfully
(truncated to its first 3 components). -/
theorem struct_acc_separator_counterexample :
    struct_zlib_compress id pfZero commaAccRecord = .error .floatParse ∧
    (struct_zlib_compress id pfZero fourTokenRecord).toOption.isSome = true := by
  constructor
  · decide
  · decide

/-- C7 (amended): the Compact Struct accelerometer conversion splits the raw
value on whitespace only and converts each token with Python `float` (so of
the four documented styles only the whitespace-separated one is accepted);
fewer than 3 resulting components make the pack step fail; a successful
encode forces at least 3 components, and the encoder reads only the first 3
(extra components are silently truncated, not rejected). -/
theorem struct_acc_whitespace_split (compress : List Nat → List Nat)
    (packF : PyFloat → List Nat) (r : StringRecord) (td : TypedData)
    (hconv : convert_to_typed_data r = .ok td) :
    optMapM (fun t => pyFloat (String.mk t)) (pySplitWs r.acc.data) = some td.acc ∧
    (td.acc.length < 3 → struct_zlib_compress compress packF r = .error .packError) ∧
    (∀ out, struct_zlib_compress compress packF r = .ok out → 3 ≤ td.acc.length) ∧
    struct_vals td = struct_vals (TypedData.mk td.msisdn td.iso6346 td.time td.cgi td.door
      td.rssi td.ble_m td.bat_soc td.gnss td.nsat
      td.temperature td.humidity td.pressure td.latitude td.longitude td.altitude
      td.speed td.heading td.hdop (td.acc.take 3)) ∧
    struct_zlib_compress id pfZero commaAccRecord = .error .floatParse ∧
    struct_zlib_compress id pfZero noSepAccRecord = .error .floatParse ∧
    (struct_zlib_compress id pfZero tinyRecord).toOption.isSome = true ∧
    struct_zlib_compress id pfZero shortAccRecord = .error .packError := by
  refine ⟨(convert_ok_elim r td hconv).1, ?_, ?_, ?_, by decide, by decide, by decide, by decide⟩
  · exact fun hlt => struct_acc_short_fails compress packF r td hconv hlt
  · exact fun out hout => (struct_ok_acc_and_ranges compress packF r td out hconv hout).1
  · rw [struct_vals_eval, struct_vals_eval]
    simp [List.take_take]

/-- Witness for C7: the 2-token record fails at the pack step, and a
successful encode of the 4-token record certifies at least 3 components. -/
theorem struct_acc_whitespace_split_witness :
    struct_zlib_compress id pfZero shortAccRecord = .error .packError ∧
    3 ≤ (TypedData.mk "m" "i" "t" "c" "d" 1 1 1 1 1
      (PyFloat.mk "1.0") (PyFloat.mk "1.0") (PyFloat.mk "1.0") (PyFloat.mk "1.0")
      (PyFloat.mk "1.0") (PyFloat.mk "1.0") (PyFloat.mk "1.0") (PyFloat.mk "1.0")
      (PyFloat.mk "1.0")
      [PyFloat.mk "1.0", PyFloat.mk "2.0", PyFloat.mk "3.0", PyFloat.mk "4.0"]).acc.length := by
  constructor
  · exact (struct_acc_whitespace_split id pfZero shortAccRecord
      (TypedData.mk "m" "i" "t" "c" "d" 1 1 1 1 1
        (PyFloat.mk "1.0") (PyFloat.mk "1.0") (PyFloat.mk "1.0") (PyFloat.mk "1.0")
        (PyFloat.mk "1.0") (PyFloat.mk "1.0") (PyFloat.mk "1.0") (PyFloat.mk "1.0")
        (PyFloat.mk "1.0")
        [PyFloat.mk "-993.9", PyFloat.mk "-27.1"]) (by decide)).2.1 (by decide)
  · exact (struct_acc_whitespace_split id pfZero fourTokenRecord
      (TypedData.mk "m" "i" "t" "c" "d" 1 1 1 1 1
        (PyFloat.mk "1.0") (PyFloat.mk "1.0") (PyFloat.mk "1.0") (PyFloat.mk "1.0")
        (PyFloat.mk "1.0") (PyFloat.mk "1.0") (PyFloat.mk "1.0") (PyFloat.mk "1.0")
        (PyFloat.mk "1.0")
        [PyFloat.mk "1.0", PyFloat.mk "2.0", PyFloat.mk "3.0", PyFloat.mk "4.0"]) (by decide)).2.2.1
      ((struct_zlib_compress id pfZero fourTokenRecord).toOption.getD []) (by decide)

/-- C10: a successful Compact Struct encode requires each of the five
counter fields to lie in `0..255` (each is packed as one unsigned byte);
under that precondition, together with the other well-formedness bounds,
the pack step cannot fail; and a record with a negative rssi makes the
fixed-width pack step raise. -/
theorem struct_byte_range_precondition (compress : List Nat → List Nat)
    (packF : PyFloat → List Nat) (r : StringRecord) (td : TypedData)
    (hconv : convert_to_typed_data r = .ok td) :
    (∀ out, struct_zlib_compress compress packF r = .ok out →
      (0 ≤ td.rssi ∧ td.rssi ≤ 255) ∧ (0 ≤ td.ble_m ∧ td.ble_m ≤ 255) ∧
      (0 ≤ td.bat_soc ∧ td.bat_soc ≤ 255) ∧ (0 ≤ td.gnss ∧ td.gnss ≤ 255) ∧
      (0 ≤ td.nsat ∧ td.nsat ≤ 255)) ∧
    (3 ≤ td.acc.length →
      (utf8 td.msisdn).length ≤ 65535 → (utf8 td.iso6346).length ≤ 65535 →
      (utf8 td.time).length ≤ 65535 → (utf8 td.cgi).length ≤ 65535 →
      (utf8 td.door).length ≤ 65535 →
      (0 ≤ td.rssi ∧ td.rssi ≤ 255) → (0 ≤ td.ble_m ∧ td.ble_m ≤ 255) →
      (0 ≤ td.bat_soc ∧ td.bat_soc ≤ 255) → (0 ≤ td.gnss ∧ td.gnss ≤ 255) →
      (0 ≤ td.nsat ∧ td.nsat ≤ 255) →
      ∃ out, struct_zlib_compress compress packF r = .ok out) ∧
    struct_zlib_compress id pfZero negRssiRecord = .error .packError := by
  refine ⟨?_, ?_, by decide⟩
  · exact fun out hout => (struct_ok_acc_and_ranges compress packF r td out hconv hout).2
  · intro hacc3 h1 h2 h3 h4 h5 hr1 hr2 hr3 hr4 hr5
    have h3t : (td.acc.take 3).length = 3 := by
      simp [List.length_take]
      omega
    obtain ⟨a1, a2, a3, htake⟩ := List.length_eq_three.mp h3t
    exact ⟨_, struct_zlib_compress_eval compress packF r td a1 a2 a3 hconv htake
      (by exact_mod_cast h1) (by exact_mod_cast h2) (by exact_mod_cast h3)
      (by exact_mod_cast h4) (by exact_mod_cast h5) hr1 hr2 hr3 hr4 hr5⟩

/-- Witness for C10 at concrete records: the unit-valued record's counters
are certified in range from its successful encode, and the in-range record
is guaranteed to encode. -/
theorem struct_byte_range_precondition_witness :
    ((0 : Int) ≤ tinyTD.rssi ∧ tinyTD.rssi ≤ 255) ∧
    (∃ out, struct_zlib_compress id pfZero tinyRecord = .ok out) := by
  constructor
  · exact ((struct_byte_range_precondition id pfZero tinyRecord tinyTD (by decide)).1
      ((struct_zlib_compress id pfZero tinyRecord).toOption.getD []) (by decide)).1
  · exact (struct_byte_range_precondition id pfZero tinyRecord tinyTD (by decide)).2.1
      (by decide) (by decide) (by decide) (by decide) (by decide) (by decide)
      (by decide) (by decide) (by decide) (by decide) (by decide)
